import Mathlib

/-!
Verification development for the `ek_geo` data structures
(`src/ek_geo/datastructs.py`): a shallow embedding of `Point`, `Coords`
(the spec's PointSet) and `Bounds`, together with proofs about the
bounding-box derivation and grid-sampling algorithms.

Modelling conventions:
* Finite Python floats are modelled as rationals (`ℚ`): the grid arithmetic
  (`/`, `//`, `int(...)`, comparisons) is exact in this idealisation.
* The construction boundary of `Point` additionally models non-finite float
  values (`PyFloat`), because pydantic accepts any float there.
* geopy's geodesic distance is an external collaborator; the source consumes
  it only through `Bounds.get_wh`.  It is modelled as an explicit function
  parameter `dist` giving kilometres between two `(lat, lon)` pairs.
* Python exceptions are modelled with `Except GeoError`; `x // 0` and
  `x / 0` raise `ZeroDivisionError`, list indexing out of range raises
  `IndexError`.
-/

namespace EkGeo

/-- Python runtime errors that the embedded fragment can raise. -/
inductive GeoError
  | indexError
  | zeroDivision
deriving DecidableEq

/-- Model of a Python float value at the validation boundary, distinguishing
finite values from `nan` and the two infinities. -/
inductive PyFloat
  | finite (q : ℚ)
  | nan
  | inf
  | neginf
deriving DecidableEq

/-- `Point` (datastructs.py lines 7-10): `lon`, `lat` floats and an open
`aux` dict, modelled as an association list with string keys. -/
structure Point where
  lon : ℚ
  lat : ℚ
  aux : List (String × ℚ) := []
deriving DecidableEq

/-- Result of pydantic model construction for `Point`: the two float fields. -/
structure RawPoint where
  lon : PyFloat
  lat : PyFloat
deriving DecidableEq

/-- Pydantic construction of `Point` (lines 7-10): the model declares plain
`lon: float` and `lat: float` fields with no validators and no constraints,
so construction performs no finiteness or range check and always succeeds,
storing the supplied values verbatim. -/
def Point.construct (lon lat : PyFloat) : Except GeoError RawPoint :=
  Except.ok ⟨lon, lat⟩

/-- A Python subscript key as used by `Point.__getitem__`: an int or a str. -/
inductive PyKey
  | i (n : Int)
  | s (k : String)

/-- `Point.__getitem__` (lines 12-21): an int subscript returns `lon` when the
index is `0` and `lat` otherwise; a str subscript returns `lon`/`lat` for those
keys and falls back to `aux.get(key)` (first binding, `None` when absent). -/
def Point.getitem (p : Point) (k : PyKey) : Option ℚ :=
  match k with
  | PyKey.i n => if n = 0 then some p.lon else some p.lat
  | PyKey.s key =>
      if key = "lon" then some p.lon
      else if key = "lat" then some p.lat
      else p.aux.lookup key

/-- `Point.latlon` (lines 26-27). -/
def Point.latlon (p : Point) : ℚ × ℚ := (p.lat, p.lon)

/-- `Point.lonlat` (lines 23-24). -/
def Point.lonlat (p : Point) : ℚ × ℚ := (p.lon, p.lat)

/-- `Coords` (line 36-37): an ordered list of points (the spec's PointSet). -/
structure Coords where
  coords : List Point := []
deriving DecidableEq

/-- `Bounds` (lines 117-119): a low and a high corner. -/
structure Bounds where
  lo : Point
  hi : Point
deriving DecidableEq

/-- The geodesic-distance collaborator (geopy): kilometres between two
`(lat, lon)` pairs. -/
abbrev Dist := ℚ × ℚ → ℚ × ℚ → ℚ

/-- `Bounds.get_wh` (lines 127-130): height is the distance from `lo` to
`(hi.lat, lo.lon)`, width the distance from `lo` to `(lo.lat, hi.lon)`;
returns `(width, height)`. -/
def Bounds.get_wh (dist : Dist) (b : Bounds) : ℚ × ℚ :=
  let height := dist b.lo.latlon (b.hi.lat, b.lo.lon)
  let width := dist b.lo.latlon (b.lo.lat, b.hi.lon)
  (width, height)

/-- The cell-count computation shared verbatim by `Coords.sample` (line 59)
and `Bounds.sample` (line 134): `int(width.km // interval.km)` and
`int(height.km // interval.km)`, i.e. floors of exact quotients, returned as
`(wcnt, hcnt)`. -/
def Bounds.gridCounts (dist : Dist) (b : Bounds) (interval : ℚ) : Int × Int :=
  let wh := b.get_wh dist
  (⌊wh.1 / interval⌋, ⌊wh.2 / interval⌋)

/-- Cell index of a point (lines 62-65): `i = int((lat - ul_lat) // lat_iv)`,
`j = int((lon - ul_lon) // lon_iv)`. -/
def cellIndex (ul_lat ul_lon lat_iv lon_iv : ℚ) (p : Point) : Int × Int :=
  (⌊(p.lat - ul_lat) / lat_iv⌋, ⌊(p.lon - ul_lon) / lon_iv⌋)

/-- The retention test of `Coords.sample` (line 66):
`0 <= i < h_len and 0 <= j < w_len`. -/
def inGrid (h_len w_len : Int) (ij : Int × Int) : Bool :=
  decide (0 ≤ ij.1 ∧ ij.1 < h_len ∧ 0 ≤ ij.2 ∧ ij.2 < w_len)

/-- `Coords.sample` (lines 54-68).  The three `ZeroDivisionError` paths of the
Python code are modelled explicitly: `interval.km = 0` raises inside the floor
divisions of line 59; `h_len = 0` or `w_len = 0` raises in the divisions of
line 60; a zero `lat_iv` or `lon_iv` raises in the per-point floor divisions of
lines 62-65 as soon as the loop body runs, i.e. when the point list is
non-empty.  Otherwise the result keeps exactly the points whose cell index
passes the range test, in input order. -/
def Coords.sample (dist : Dist) (c : Coords) (bounds : Bounds) (interval : ℚ) :
    Except GeoError Coords :=
  let ul_lat := bounds.lo.lat
  let ul_lon := bounds.lo.lon
  let br_lat := bounds.hi.lat
  let br_lon := bounds.hi.lon
  if interval = 0 then Except.error GeoError.zeroDivision
  else
    let cnts := bounds.gridCounts dist interval
    let w_len := cnts.1
    let h_len := cnts.2
    if h_len = 0 ∨ w_len = 0 then Except.error GeoError.zeroDivision
    else
      let lat_iv := (br_lat - ul_lat) / (h_len : ℚ)
      let lon_iv := (br_lon - ul_lon) / (w_len : ℚ)
      if c.coords ≠ [] ∧ (lat_iv = 0 ∨ lon_iv = 0) then
        Except.error GeoError.zeroDivision
      else
        Except.ok ⟨c.coords.filter fun p =>
          inGrid h_len w_len (cellIndex ul_lat ul_lon lat_iv lon_iv p)⟩

/-- `Bounds.sample` (lines 132-141): for `i` in `range(hcnt)` and `j` in
`range(wcnt)` emit the linearly interpolated point; `interval.km = 0` raises
`ZeroDivisionError` in the floor divisions of line 134. -/
def Bounds.sample (dist : Dist) (b : Bounds) (interval : ℚ) :
    Except GeoError Coords :=
  if interval = 0 then Except.error GeoError.zeroDivision
  else
    let cnts := b.gridCounts dist interval
    let wcnt := cnts.1
    let hcnt := cnts.2
    Except.ok ⟨(List.range hcnt.toNat).flatMap fun (i : ℕ) =>
      (List.range wcnt.toNat).map fun (j : ℕ) =>
        ⟨b.lo.lon + ((j : ℚ) / (wcnt : ℚ)) * (b.hi.lon - b.lo.lon),
         b.lo.lat + ((i : ℚ) / (hcnt : ℚ)) * (b.hi.lat - b.lo.lat),
         []⟩⟩

/-- One step of the min/max accumulation in `Coords.get_bounds`
(lines 47-51): componentwise min into `lo`, max into `hi`. -/
def boundsStep (acc : Point × Point) (point : Point) : Point × Point :=
  (⟨min acc.1.lon point.lon, min acc.1.lat point.lat, []⟩,
   ⟨max acc.2.lon point.lon, max acc.2.lat point.lat, []⟩)

/-- `Coords.get_bounds` (lines 42-52): `None` for an empty list, otherwise a
single pass folding componentwise min/max starting from copies of the first
point (the loop of line 47 revisits the first point; that is harmless and kept
as in the source). -/
def Coords.get_bounds (c : Coords) : Option Bounds :=
  match c.coords with
  | [] => none
  | p0 :: _ =>
      let init : Point × Point := (⟨p0.lon, p0.lat, []⟩, ⟨p0.lon, p0.lat, []⟩)
      let r := c.coords.foldl boundsStep init
      some ⟨r.1, r.2⟩

/-- The effective position used by Python list indexing: a negative index
counts from the end of the list. -/
def pyIndex (l : List Point) (idx : Int) : Int :=
  if idx < 0 then (l.length : Int) + idx else idx

/-- Semantics of Python built-in list indexing `l[idx]` for int `idx`
(negative indices count from the end; out of range raises `IndexError`). -/
def pyListGet (l : List Point) (idx : Int) : Except GeoError Point :=
  if 0 ≤ pyIndex l idx then
    match l[(pyIndex l idx).toNat]? with
    | some p => Except.ok p
    | none => Except.error GeoError.indexError
  else Except.error GeoError.indexError

/-- The int branch of `Coords.__getitem__` (lines 104-106):
`return self.coords[idx]` with Python list semantics. -/
def Coords.getitemInt (c : Coords) (idx : Int) : Except GeoError Point :=
  pyListGet c.coords idx

/-- `Coords.__len__` (lines 113-114). -/
def Coords.len (c : Coords) : Nat := c.coords.length

/-! ### Helper lemmas about the row-major grid list -/

lemma grid_length (g : Nat → Nat → Point) (m n : Nat) :
    ((List.range m).flatMap fun i => (List.range n).map (g i)).length = m * n := by
  induction m with
  | zero => simp
  | succ m ih =>
      rw [List.range_succ, List.flatMap_append, List.flatMap_singleton]
      simp [ih, Nat.succ_mul]

lemma grid_getElem (g : Nat → Nat → Point) (m n k : Nat) (hk : k < m * n) :
    ((List.range m).flatMap fun i => (List.range n).map (g i))[k]? =
      some (g (k / n) (k % n)) := by
  induction m with
  | zero => simp at hk
  | succ m ih =>
      rw [List.range_succ, List.flatMap_append, List.flatMap_singleton]
      by_cases hkm : k < m * n
      · rw [List.getElem?_append_left (by rw [grid_length]; exact hkm)]
        exact ih hkm
      · have hsum : (m + 1) * n = m * n + n := Nat.succ_mul m n
        have hn : 0 < n := by omega
        have hmn : m * n ≤ k := Nat.le_of_not_lt hkm
        have hr : k - m * n < n := by omega
        rw [List.getElem?_append_right (by rw [grid_length]; exact hmn)]
        rw [grid_length, List.getElem?_map, List.getElem?_range hr]
        have h2 : k = n * m + (k - m * n) := by
          rw [Nat.mul_comm]; omega
        have hdiv : k / n = m := by
          conv_lhs => rw [h2]
          rw [Nat.mul_add_div hn, Nat.div_eq_of_lt hr, Nat.add_zero]
        have hmod : k % n = k - m * n := by
          conv_lhs => rw [h2]
          rw [Nat.mul_add_mod, Nat.mod_eq_of_lt hr]
        rw [hdiv, hmod]
        rfl

/-! ### Helper lemmas about min/max folds (for `Coords.get_bounds`) -/

lemma foldl_min_le_init (f : Point → ℚ) :
    ∀ (l : List Point) (a : ℚ), l.foldl (fun m x => min m (f x)) a ≤ a := by
  intro l
  induction l with
  | nil => intro a; exact le_refl a
  | cons q l ih =>
      intro a
      exact le_trans (ih (min a (f q))) (min_le_left _ _)

lemma foldl_min_le_mem (f : Point → ℚ) :
    ∀ (l : List Point) (a : ℚ) (p : Point), p ∈ l →
      l.foldl (fun m x => min m (f x)) a ≤ f p := by
  intro l
  induction l with
  | nil => intro a p hp; simp at hp
  | cons q l ih =>
      intro a p hp
      rcases List.mem_cons.mp hp with h | h
      · subst h
        exact le_trans (foldl_min_le_init f l (min a (f p))) (min_le_right _ _)
      · exact ih (min a (f q)) p h

lemma foldl_min_attained (f : Point → ℚ) :
    ∀ (l : List Point) (a : ℚ),
      l.foldl (fun m x => min m (f x)) a = a ∨
        ∃ p ∈ l, l.foldl (fun m x => min m (f x)) a = f p := by
  intro l
  induction l with
  | nil => intro a; exact Or.inl rfl
  | cons q l ih =>
      intro a
      rw [List.foldl_cons]
      rcases ih (min a (f q)) with h | ⟨p, hp, h⟩
      · rcases min_choice a (f q) with hm | hm
        · left; rw [h, hm]
        · right; exact ⟨q, List.mem_cons_self q l, by rw [h, hm]⟩
      · right; exact ⟨p, List.mem_cons_of_mem q hp, h⟩

lemma foldl_max_le_init (f : Point → ℚ) :
    ∀ (l : List Point) (a : ℚ), a ≤ l.foldl (fun m x => max m (f x)) a := by
  intro l
  induction l with
  | nil => intro a; exact le_refl a
  | cons q l ih =>
      intro a
      exact le_trans (le_max_left _ _) (ih (max a (f q)))

lemma foldl_max_le_mem (f : Point → ℚ) :
    ∀ (l : List Point) (a : ℚ) (p : Point), p ∈ l →
      f p ≤ l.foldl (fun m x => max m (f x)) a := by
  intro l
  induction l with
  | nil => intro a p hp; simp at hp
  | cons q l ih =>
      intro a p hp
      rcases List.mem_cons.mp hp with h | h
      · subst h
        exact le_trans (le_max_right _ _) (foldl_max_le_init f l (max a (f p)))
      · exact ih (max a (f q)) p h

lemma foldl_max_attained (f : Point → ℚ) :
    ∀ (l : List Point) (a : ℚ),
      l.foldl (fun m x => max m (f x)) a = a ∨
        ∃ p ∈ l, l.foldl (fun m x => max m (f x)) a = f p := by
  intro l
  induction l with
  | nil => intro a; exact Or.inl rfl
  | cons q l ih =>
      intro a
      rw [List.foldl_cons]
      rcases ih (max a (f q)) with h | ⟨p, hp, h⟩
      · rcases max_choice a (f q) with hm | hm
        · left; rw [h, hm]
        · right; exact ⟨q, List.mem_cons_self q l, by rw [h, hm]⟩
      · right; exact ⟨p, List.mem_cons_of_mem q hp, h⟩

lemma foldl_boundsStep (l : List Point) :
    ∀ acc : Point × Point, acc.1.aux = [] → acc.2.aux = [] →
      l.foldl boundsStep acc =
        (⟨l.foldl (fun m p => min m p.lon) acc.1.lon,
          l.foldl (fun m p => min m p.lat) acc.1.lat, []⟩,
         ⟨l.foldl (fun m p => max m p.lon) acc.2.lon,
          l.foldl (fun m p => max m p.lat) acc.2.lat, []⟩) := by
  induction l with
  | nil =>
      rintro ⟨⟨alon, alat, aaux⟩, ⟨blon, blat, baux⟩⟩ h1 h2
      obtain rfl : aaux = [] := h1
      obtain rfl : baux = [] := h2
      rfl
  | cons q l ih =>
      rintro ⟨⟨alon, alat, aaux⟩, ⟨blon, blat, baux⟩⟩ h1 h2
      simp only [List.foldl_cons]
      rw [ih (boundsStep (⟨alon, alat, aaux⟩, ⟨blon, blat, baux⟩) q) rfl rfl]
      rfl

/-- Reduction of `Coords.sample` to its success branch: when none of the
division-by-zero paths fire, the result is exactly the input filtered by the
cell-range test. -/
lemma sample_ok (dist : Dist) (c : Coords) (b : Bounds) (interval : ℚ)
    (wcnt hcnt : Int)
    (hiv : interval ≠ 0) (hcnts : b.gridCounts dist interval = (wcnt, hcnt))
    (hw : wcnt ≠ 0) (hh : hcnt ≠ 0)
    (hlatv : (b.hi.lat - b.lo.lat) / (hcnt : ℚ) ≠ 0)
    (hlonv : (b.hi.lon - b.lo.lon) / (wcnt : ℚ) ≠ 0) :
    Coords.sample dist c b interval = Except.ok
      ⟨c.coords.filter fun p => inGrid hcnt wcnt
        (cellIndex b.lo.lat b.lo.lon ((b.hi.lat - b.lo.lat) / (hcnt : ℚ))
          ((b.hi.lon - b.lo.lon) / (wcnt : ℚ)) p)⟩ := by
  simp only [Coords.sample, hcnts, if_neg hiv]
  rw [if_neg (not_or.mpr ⟨hh, hw⟩), if_neg (fun hco => hco.2.elim hlatv hlonv)]

/-! ### Claim theorems -/

/-- C7: deriving bounds from a point set returns `none` for an empty set and,
for a non-empty set, the tight componentwise min/max rectangle: `lo` is
componentwise ≤ every point, `hi` componentwise ≥ every point, and each of the
four coordinates of `lo`, `hi` is attained by some point of the set. -/
theorem c7_get_bounds (c : Coords) :
    (c.coords = [] → c.get_bounds = none) ∧
    (c.coords ≠ [] → ∃ b, c.get_bounds = some b ∧
      (∀ p ∈ c.coords,
        b.lo.lon ≤ p.lon ∧ b.lo.lat ≤ p.lat ∧ p.lon ≤ b.hi.lon ∧ p.lat ≤ b.hi.lat) ∧
      (∃ p ∈ c.coords, b.lo.lon = p.lon) ∧ (∃ p ∈ c.coords, b.lo.lat = p.lat) ∧
      (∃ p ∈ c.coords, b.hi.lon = p.lon) ∧ (∃ p ∈ c.coords, b.hi.lat = p.lat)) := by
  constructor
  · intro h
    unfold Coords.get_bounds
    rw [h]
  · intro h
    obtain ⟨p0, rest, hc⟩ : ∃ p0 rest, c.coords = p0 :: rest := by
      cases hcc : c.coords with
      | nil => exact absurd hcc h
      | cons a l => exact ⟨a, l, rfl⟩
    have hg : c.get_bounds = some
        ⟨⟨(p0 :: rest).foldl (fun m p => min m p.lon) p0.lon,
          (p0 :: rest).foldl (fun m p => min m p.lat) p0.lat, []⟩,
         ⟨(p0 :: rest).foldl (fun m p => max m p.lon) p0.lon,
          (p0 :: rest).foldl (fun m p => max m p.lat) p0.lat, []⟩⟩ := by
      unfold Coords.get_bounds
      rw [hc]
      dsimp only
      rw [foldl_boundsStep (p0 :: rest) (⟨p0.lon, p0.lat, []⟩, ⟨p0.lon, p0.lat, []⟩) rfl rfl]
    refine ⟨_, hg, ?_, ?_, ?_, ?_, ?_⟩
    · intro p hp
      rw [hc] at hp
      exact ⟨foldl_min_le_mem (fun q => q.lon) (p0 :: rest) p0.lon p hp,
             foldl_min_le_mem (fun q => q.lat) (p0 :: rest) p0.lat p hp,
             foldl_max_le_mem (fun q => q.lon) (p0 :: rest) p0.lon p hp,
             foldl_max_le_mem (fun q => q.lat) (p0 :: rest) p0.lat p hp⟩
    · rw [hc]
      rcases foldl_min_attained (fun q => q.lon) (p0 :: rest) p0.lon with h1 | ⟨p, hp, h1⟩
      · exact ⟨p0, List.mem_cons_self p0 rest, h1⟩
      · exact ⟨p, hp, h1⟩
    · rw [hc]
      rcases foldl_min_attained (fun q => q.lat) (p0 :: rest) p0.lat with h1 | ⟨p, hp, h1⟩
      · exact ⟨p0, List.mem_cons_self p0 rest, h1⟩
      · exact ⟨p, hp, h1⟩
    · rw [hc]
      rcases foldl_max_attained (fun q => q.lon) (p0 :: rest) p0.lon with h1 | ⟨p, hp, h1⟩
      · exact ⟨p0, List.mem_cons_self p0 rest, h1⟩
      · exact ⟨p, hp, h1⟩
    · rw [hc]
      rcases foldl_max_attained (fun q => q.lat) (p0 :: rest) p0.lat with h1 | ⟨p, hp, h1⟩
      · exact ⟨p0, List.mem_cons_self p0 rest, h1⟩
      · exact ⟨p, hp, h1⟩

/-- C7 witness: the non-empty part of `c7_get_bounds` at a concrete two-point
set. -/
theorem c7_witness :
    ∃ b, (Coords.mk [⟨3, 4, []⟩, ⟨1, 7, []⟩]).get_bounds = some b ∧
      (∀ p ∈ (Coords.mk [(⟨3, 4, []⟩ : Point), ⟨1, 7, []⟩]).coords,
        b.lo.lon ≤ p.lon ∧ b.lo.lat ≤ p.lat ∧ p.lon ≤ b.hi.lon ∧ p.lat ≤ b.hi.lat) ∧
      (∃ p ∈ (Coords.mk [(⟨3, 4, []⟩ : Point), ⟨1, 7, []⟩]).coords, b.lo.lon = p.lon) ∧
      (∃ p ∈ (Coords.mk [(⟨3, 4, []⟩ : Point), ⟨1, 7, []⟩]).coords, b.lo.lat = p.lat) ∧
      (∃ p ∈ (Coords.mk [(⟨3, 4, []⟩ : Point), ⟨1, 7, []⟩]).coords, b.hi.lon = p.lon) ∧
      (∃ p ∈ (Coords.mk [(⟨3, 4, []⟩ : Point), ⟨1, 7, []⟩]).coords, b.hi.lat = p.lat) :=
  (c7_get_bounds ⟨[⟨3, 4, []⟩, ⟨1, 7, []⟩]⟩).2 (by simp)

/-- C1 counterexample: with a 1 × 1 grid over the unit square, the two input
points `(1/4, 1/4)` and `(1/2, 1/2)` both map to cell `(0, 0)`, yet
`Coords.sample` retains both of them — the code performs no per-cell
deduplication, refuting at-most-one-point-per-cell retention. -/
theorem c1_counterexample :
    Bounds.gridCounts (fun _ _ => 1) ⟨⟨0, 0, []⟩, ⟨1, 1, []⟩⟩ 1 = (1, 1) ∧
    Coords.sample (fun _ _ => 1) ⟨[⟨1/4, 1/4, []⟩, ⟨1/2, 1/2, []⟩]⟩
        ⟨⟨0, 0, []⟩, ⟨1, 1, []⟩⟩ 1 =
      Except.ok ⟨[⟨1/4, 1/4, []⟩, ⟨1/2, 1/2, []⟩]⟩ ∧
    (⟨1/4, 1/4, []⟩ : Point) ≠ ⟨1/2, 1/2, []⟩ ∧
    cellIndex 0 0 1 1 ⟨1/4, 1/4, []⟩ = (0, 0) ∧
    cellIndex 0 0 1 1 ⟨1/2, 1/2, []⟩ = (0, 0) := by
  refine ⟨?_, ?_, ?_, ?_, ?_⟩ <;>
    norm_num [Bounds.gridCounts, Bounds.get_wh, Point.latlon, Coords.sample,
      cellIndex, inGrid, List.filter]

/-- C1 (amended): `Coords.sample` is a pure range filter — for positive cell
counts over a non-degenerate rectangle it retains every input point whose cell
index is in range, in input order, with no per-cell deduplication (points
sharing a cell are all kept). -/
theorem c1_sample_is_pure_filter (dist : Dist) (c : Coords) (b : Bounds)
    (interval : ℚ) (wcnt hcnt : Int) (hiv : interval ≠ 0)
    (hcnts : b.gridCounts dist interval = (wcnt, hcnt))
    (hw : 1 ≤ wcnt) (hh : 1 ≤ hcnt)
    (hlat : b.lo.lat ≠ b.hi.lat) (hlon : b.lo.lon ≠ b.hi.lon) :
    Coords.sample dist c b interval = Except.ok
      ⟨c.coords.filter fun p => inGrid hcnt wcnt
        (cellIndex b.lo.lat b.lo.lon ((b.hi.lat - b.lo.lat) / (hcnt : ℚ))
          ((b.hi.lon - b.lo.lon) / (wcnt : ℚ)) p)⟩ :=
  sample_ok dist c b interval wcnt hcnt hiv hcnts (by omega) (by omega)
    (div_ne_zero (sub_ne_zero.mpr (Ne.symm hlat)) (Int.cast_ne_zero.mpr (by omega)))
    (div_ne_zero (sub_ne_zero.mpr (Ne.symm hlon)) (Int.cast_ne_zero.mpr (by omega)))

/-- C1 witness: the amended filter semantics at a concrete one-point input on
a 1 × 1 grid. -/
theorem c1_witness :
    Coords.sample (fun _ _ => 1) ⟨[⟨1/4, 1/4, []⟩]⟩ ⟨⟨0, 0, []⟩, ⟨1, 1, []⟩⟩ 1 =
      Except.ok ⟨(Coords.mk [(⟨1/4, 1/4, []⟩ : Point)]).coords.filter fun p =>
        inGrid 1 1 (cellIndex (⟨⟨0, 0, []⟩, ⟨1, 1, []⟩⟩ : Bounds).lo.lat
          (⟨⟨0, 0, []⟩, ⟨1, 1, []⟩⟩ : Bounds).lo.lon
          (((⟨⟨0, 0, []⟩, ⟨1, 1, []⟩⟩ : Bounds).hi.lat -
              (⟨⟨0, 0, []⟩, ⟨1, 1, []⟩⟩ : Bounds).lo.lat) / ((1 : ℤ) : ℚ))
          (((⟨⟨0, 0, []⟩, ⟨1, 1, []⟩⟩ : Bounds).hi.lon -
              (⟨⟨0, 0, []⟩, ⟨1, 1, []⟩⟩ : Bounds).lo.lon) / ((1 : ℤ) : ℚ)) p)⟩ :=
  c1_sample_is_pure_filter (fun _ _ => 1) ⟨[⟨1/4, 1/4, []⟩]⟩ ⟨⟨0, 0, []⟩, ⟨1, 1, []⟩⟩ 1 1 1
    (by norm_num) (by norm_num [Bounds.gridCounts, Bounds.get_wh, Point.latlon])
    (by norm_num) (by norm_num) (by norm_num) (by norm_num)

/-- C2 counterexample: with zero external width/height the cell counts are
`(0, 0)`, yet `Bounds.sample` silently returns an empty point set instead of
failing — there is no `DegenerateGridError` in the code — while
`Coords.sample` fails with a `ZeroDivisionError`. -/
theorem c2_counterexample :
    Bounds.gridCounts (fun _ _ => 0) ⟨⟨0, 0, []⟩, ⟨1, 1, []⟩⟩ 1 = (0, 0) ∧
    Bounds.sample (fun _ _ => 0) ⟨⟨0, 0, []⟩, ⟨1, 1, []⟩⟩ 1 = Except.ok ⟨[]⟩ ∧
    Coords.sample (fun _ _ => 0) ⟨[⟨0, 0, []⟩]⟩ ⟨⟨0, 0, []⟩, ⟨1, 1, []⟩⟩ 1 =
      Except.error GeoError.zeroDivision := by
  refine ⟨?_, ?_, ?_⟩ <;>
    norm_num [Bounds.gridCounts, Bounds.get_wh, Point.latlon, Bounds.sample,
      Coords.sample]

/-- C2 (amended): when `wcnt = 0` or `hcnt = 0`, `Bounds.sample` silently
returns an empty point set (its loops simply do not run) and `Coords.sample`
fails with `ZeroDivisionError`; neither raises a `DegenerateGridError`, which
does not exist in the code. -/
theorem c2_degenerate_grid_behavior (dist : Dist) (c : Coords) (b : Bounds)
    (interval : ℚ) (wcnt hcnt : Int) (hiv : interval ≠ 0)
    (hcnts : b.gridCounts dist interval = (wcnt, hcnt))
    (hzero : wcnt = 0 ∨ hcnt = 0) :
    b.sample dist interval = Except.ok ⟨[]⟩ ∧
    Coords.sample dist c b interval = Except.error GeoError.zeroDivision := by
  constructor
  · simp only [Bounds.sample, hcnts, if_neg hiv]
    rcases hzero with h | h
    · subst h
      simp [List.flatMap_eq_nil_iff]
    · subst h
      simp
  · simp only [Coords.sample, hcnts, if_neg hiv]
    rw [if_pos hzero.symm]

/-- C2 witness: the amended degenerate behaviour at a concrete instance with
zero external width/height (cell counts `(0, 0)`). -/
theorem c2_witness :
    Bounds.sample (fun _ _ => 0) ⟨⟨0, 0, []⟩, ⟨1, 1, []⟩⟩ 1 = Except.ok ⟨[]⟩ ∧
    Coords.sample (fun _ _ => 0) ⟨[⟨0, 0, []⟩]⟩ ⟨⟨0, 0, []⟩, ⟨1, 1, []⟩⟩ 1 =
      Except.error GeoError.zeroDivision :=
  c2_degenerate_grid_behavior (fun _ _ => 0) ⟨[⟨0, 0, []⟩]⟩ ⟨⟨0, 0, []⟩, ⟨1, 1, []⟩⟩ 1 0 0
    (by norm_num) (by norm_num [Bounds.gridCounts, Bounds.get_wh, Point.latlon])
    (Or.inl rfl)

/-- C5 counterexample: constructing a point with a `NaN` longitude and an
out-of-range latitude of `200` succeeds, storing the values verbatim — it does
not fail with any `InvalidCoordinateError` (no such check exists). -/
theorem c5_counterexample :
    Point.construct PyFloat.nan (PyFloat.finite 200) =
      Except.ok ⟨PyFloat.nan, PyFloat.finite 200⟩ := rfl

/-- C5 (amended): `Point` construction performs no validation at all — any
float values, non-finite or out of range included, are accepted and stored
verbatim, and construction never fails. -/
theorem c5_construct_accepts_all (lon lat : PyFloat) :
    Point.construct lon lat = Except.ok ⟨lon, lat⟩ := rfl

/-- C6 counterexample: on a one-point set, index `-1` lies outside
`[0, len)`, yet integer access returns the point (Python negative indexing)
instead of failing with `IndexError`. -/
theorem c6_counterexample :
    Coords.getitemInt ⟨[⟨5, 6, []⟩]⟩ (-1) = Except.ok ⟨5, 6, []⟩ ∧
    ¬ (0 ≤ (-1 : Int)) := ⟨rfl, by decide⟩

/-- C6 (amended): integer access on a PointSet follows Python list semantics:
it fails with `IndexError` exactly when the index is `≥ len` or `< -len`;
for `0 ≤ idx < len` it returns the point at position `idx`, and for
`-len ≤ idx < 0` it returns the point at position `len + idx`. -/
theorem c6_getitem_int (c : Coords) (idx : Int) :
    ((c.coords.length : Int) ≤ idx ∨ idx < -(c.coords.length : Int) →
        c.getitemInt idx = Except.error GeoError.indexError) ∧
    (0 ≤ idx → idx < (c.coords.length : Int) →
        ∃ p, c.coords[idx.toNat]? = some p ∧ c.getitemInt idx = Except.ok p) ∧
    (-(c.coords.length : Int) ≤ idx → idx < 0 →
        ∃ p, c.coords[((c.coords.length : Int) + idx).toNat]? = some p ∧
          c.getitemInt idx = Except.ok p) := by
  refine ⟨fun h => ?_, fun h1 h2 => ?_, fun h1 h2 => ?_⟩
  · rcases h with h | h
    · have hx : pyIndex c.coords idx = idx := if_neg (by omega)
      unfold Coords.getitemInt pyListGet
      rw [hx, if_pos (by omega), List.getElem?_eq_none (by omega)]
    · have hx : pyIndex c.coords idx = (c.coords.length : Int) + idx := if_pos (by omega)
      unfold Coords.getitemInt pyListGet
      rw [hx, if_neg (by omega)]
  · have hx : pyIndex c.coords idx = idx := if_neg (by omega)
    have hlt : idx.toNat < c.coords.length := by omega
    refine ⟨c.coords.get ⟨idx.toNat, hlt⟩, by simp, ?_⟩
    unfold Coords.getitemInt pyListGet
    rw [hx, if_pos (by omega), List.getElem?_eq_getElem hlt]
    rfl
  · have hx : pyIndex c.coords idx = (c.coords.length : Int) + idx := if_pos (by omega)
    have hlt : ((c.coords.length : Int) + idx).toNat < c.coords.length := by omega
    refine ⟨c.coords.get ⟨((c.coords.length : Int) + idx).toNat, hlt⟩, by simp, ?_⟩
    unfold Coords.getitemInt pyListGet
    rw [hx, if_pos (by omega), List.getElem?_eq_getElem hlt]
    rfl

/-- C6 witness: the in-range part of the amended statement at index 0 of a
one-point set. -/
theorem c6_witness :
    ∃ p, (Coords.mk [(⟨5, 6, []⟩ : Point)]).coords[(0 : Int).toNat]? = some p ∧
      (Coords.mk [(⟨5, 6, []⟩ : Point)]).getitemInt 0 = Except.ok p :=
  (c6_getitem_int ⟨[⟨5, 6, []⟩]⟩ 0).2.1 (by decide) (by simp)

/-- C8: with positive cell counts over a non-degenerate rectangle, any point
whose latitude equals `hi.lat` or whose longitude equals `hi.lon` is excluded
by `Coords.sample`, because the retention conditions `i < hcnt` and
`j < wcnt` are strict. -/
theorem c8_boundary_excluded (dist : Dist) (c : Coords) (b : Bounds)
    (interval : ℚ) (wcnt hcnt : Int) (hiv : interval ≠ 0)
    (hcnts : b.gridCounts dist interval = (wcnt, hcnt))
    (hw : 1 ≤ wcnt) (hh : 1 ≤ hcnt)
    (hlat : b.lo.lat < b.hi.lat) (hlon : b.lo.lon < b.hi.lon) :
    ∃ out, Coords.sample dist c b interval = Except.ok out ∧
      ∀ p : Point, p.lat = b.hi.lat ∨ p.lon = b.hi.lon → p ∉ out.coords := by
  have hA : b.hi.lat - b.lo.lat ≠ 0 := sub_ne_zero.mpr (ne_of_gt hlat)
  have hB : b.hi.lon - b.lo.lon ≠ 0 := sub_ne_zero.mpr (ne_of_gt hlon)
  have hhq : ((hcnt : ℤ) : ℚ) ≠ 0 := Int.cast_ne_zero.mpr (by omega)
  have hwq : ((wcnt : ℤ) : ℚ) ≠ 0 := Int.cast_ne_zero.mpr (by omega)
  refine ⟨_, sample_ok dist c b interval wcnt hcnt hiv hcnts (by omega) (by omega)
    (div_ne_zero hA hhq) (div_ne_zero hB hwq), ?_⟩
  intro p hp hmem
  simp only [List.mem_filter] at hmem
  obtain ⟨-, hgrid⟩ := hmem
  simp only [inGrid, decide_eq_true_eq] at hgrid
  obtain ⟨hi0, hi1, hj0, hj1⟩ := hgrid
  rcases hp with hp | hp
  · dsimp only [cellIndex] at hi1
    rw [hp] at hi1
    have hkey : (b.hi.lat - b.lo.lat) / ((b.hi.lat - b.lo.lat) / (hcnt : ℚ)) = (hcnt : ℚ) := by
      rw [div_div_eq_mul_div, mul_comm, mul_div_assoc, div_self hA, mul_one]
    rw [hkey, Int.floor_intCast] at hi1
    exact absurd hi1 (lt_irrefl hcnt)
  · dsimp only [cellIndex] at hj1
    rw [hp] at hj1
    have hkey : (b.hi.lon - b.lo.lon) / ((b.hi.lon - b.lo.lon) / (wcnt : ℚ)) = (wcnt : ℚ) := by
      rw [div_div_eq_mul_div, mul_comm, mul_div_assoc, div_self hB, mul_one]
    rw [hkey, Int.floor_intCast] at hj1
    exact absurd hj1 (lt_irrefl wcnt)

/-- C8 witness: the exclusion property at a concrete instance (1 × 1 grid
over the unit square, one input point sitting exactly on `hi.lon`). -/
theorem c8_witness :
    ∃ out, Coords.sample (fun _ _ => 1) ⟨[⟨1, 1/2, []⟩]⟩ ⟨⟨0, 0, []⟩, ⟨1, 1, []⟩⟩ 1 =
        Except.ok out ∧
      ∀ p : Point,
        p.lat = (⟨⟨0, 0, []⟩, ⟨1, 1, []⟩⟩ : Bounds).hi.lat ∨
          p.lon = (⟨⟨0, 0, []⟩, ⟨1, 1, []⟩⟩ : Bounds).hi.lon → p ∉ out.coords :=
  c8_boundary_excluded (fun _ _ => 1) ⟨[⟨1, 1/2, []⟩]⟩ ⟨⟨0, 0, []⟩, ⟨1, 1, []⟩⟩ 1 1 1
    (by norm_num) (by norm_num [Bounds.gridCounts, Bounds.get_wh, Point.latlon])
    (by norm_num) (by norm_num) (by norm_num) (by norm_num)

/-- C10: `Point` subscript access is total for int and str keys: an int key
returns `lon` for `0` and `lat` for every other integer; a str key other than
`"lon"`/`"lat"` returns the `aux` binding for that key, or `none` when the key
is absent, and never fails. -/
theorem c10_point_getitem (p : Point) (n : Int) (s : String) :
    p.getitem (PyKey.i 0) = some p.lon ∧
    (n ≠ 0 → p.getitem (PyKey.i n) = some p.lat) ∧
    (s ≠ "lon" → s ≠ "lat" → p.getitem (PyKey.s s) = p.aux.lookup s) := by
  refine ⟨rfl, fun hn => ?_, fun h1 h2 => ?_⟩
  · simp [Point.getitem, hn]
  · simp [Point.getitem, h1, h2]

/-- C10 witness: subscript behaviour at a concrete point, a negative int key
and an aux key. -/
theorem c10_witness :
    (⟨3, 4, [("k", 7)]⟩ : Point).getitem (PyKey.i 0) = some 3 ∧
    (⟨3, 4, [("k", 7)]⟩ : Point).getitem (PyKey.i (-5)) = some 4 ∧
    (⟨3, 4, [("k", 7)]⟩ : Point).getitem (PyKey.s "k") =
      [("k", (7 : ℚ))].lookup "k" :=
  ⟨(c10_point_getitem ⟨3, 4, [("k", 7)]⟩ (-5) "k").1,
   (c10_point_getitem ⟨3, 4, [("k", 7)]⟩ (-5) "k").2.1 (by decide),
   (c10_point_getitem ⟨3, 4, [("k", 7)]⟩ (-5) "k").2.2 (by decide) (by decide)⟩

/-- C3: for every bounds and interval with `wcnt ≥ 1` and `hcnt ≥ 1` (and the
documented bounds invariant `lo ≤ hi` componentwise), `Bounds.sample` returns
exactly `wcnt * hcnt` points, each inside the rectangle, emitted in row-major
order: position `k` holds the point with row `i = k / wcnt`, column
`j = k % wcnt`, `lat = lo.lat + (i/hcnt)*(hi.lat - lo.lat)` and
`lon = lo.lon + (j/wcnt)*(hi.lon - lo.lon)`. -/
theorem c3_bounds_sample_grid (dist : Dist) (b : Bounds) (interval : ℚ)
    (wcnt hcnt : Int)
    (hiv : interval ≠ 0) (hcnts : b.gridCounts dist interval = (wcnt, hcnt))
    (hw : 1 ≤ wcnt) (hh : 1 ≤ hcnt)
    (hlon : b.lo.lon ≤ b.hi.lon) (hlat : b.lo.lat ≤ b.hi.lat) :
    ∃ out, b.sample dist interval = Except.ok out ∧
      out.coords.length = wcnt.toNat * hcnt.toNat ∧
      (∀ p ∈ out.coords,
        b.lo.lon ≤ p.lon ∧ p.lon ≤ b.hi.lon ∧ b.lo.lat ≤ p.lat ∧ p.lat ≤ b.hi.lat) ∧
      (∀ k, k < wcnt.toNat * hcnt.toNat →
        out.coords[k]? = some
          ⟨b.lo.lon + (((k % wcnt.toNat : ℕ) : ℚ) / (wcnt : ℚ)) * (b.hi.lon - b.lo.lon),
           b.lo.lat + (((k / wcnt.toNat : ℕ) : ℚ) / (hcnt : ℚ)) * (b.hi.lat - b.lo.lat),
           []⟩) := by
  have hw0 : (0 : ℚ) < (wcnt : ℚ) := by exact_mod_cast (by omega : (0 : ℤ) < wcnt)
  have hh0 : (0 : ℚ) < (hcnt : ℚ) := by exact_mod_cast (by omega : (0 : ℤ) < hcnt)
  have hs : b.sample dist interval = Except.ok
      ⟨(List.range hcnt.toNat).flatMap fun (i : ℕ) => (List.range wcnt.toNat).map fun (j : ℕ) =>
        ⟨b.lo.lon + ((j : ℚ) / (wcnt : ℚ)) * (b.hi.lon - b.lo.lon),
         b.lo.lat + ((i : ℚ) / (hcnt : ℚ)) * (b.hi.lat - b.lo.lat),
         []⟩⟩ := by
    simp only [Bounds.sample, hcnts, if_neg hiv]
  refine ⟨_, hs, ?_, ?_, ?_⟩
  · rw [grid_length, Nat.mul_comm]
  · intro p hp
    simp only [List.mem_flatMap, List.mem_map, List.mem_range] at hp
    obtain ⟨i, hi, j, hj, rfl⟩ := hp
    have hjw : (j : ℚ) ≤ (wcnt : ℚ) := by
      have h1 : (j : ℤ) ≤ wcnt := by omega
      exact_mod_cast h1
    have hih : (i : ℚ) ≤ (hcnt : ℚ) := by
      have h1 : (i : ℤ) ≤ hcnt := by omega
      exact_mod_cast h1
    have hdlon : (0 : ℚ) ≤ b.hi.lon - b.lo.lon := by linarith
    have hdlat : (0 : ℚ) ≤ b.hi.lat - b.lo.lat := by linarith
    have hj0 : (0 : ℚ) ≤ (j : ℚ) / (wcnt : ℚ) :=
      div_nonneg (Nat.cast_nonneg j) hw0.le
    have hi0 : (0 : ℚ) ≤ (i : ℚ) / (hcnt : ℚ) :=
      div_nonneg (Nat.cast_nonneg i) hh0.le
    have hj1 : (j : ℚ) / (wcnt : ℚ) ≤ 1 := (div_le_one hw0).mpr hjw
    have hi1 : (i : ℚ) / (hcnt : ℚ) ≤ 1 := (div_le_one hh0).mpr hih
    have hjm := mul_le_of_le_one_left hdlon hj1
    have him := mul_le_of_le_one_left hdlat hi1
    have hjm0 := mul_nonneg hj0 hdlon
    have him0 := mul_nonneg hi0 hdlat
    exact ⟨by linarith, by linarith, by linarith, by linarith⟩
  · intro k hk
    have hk2 : k < hcnt.toNat * wcnt.toNat := by rw [Nat.mul_comm]; exact hk
    rw [grid_getElem _ hcnt.toNat wcnt.toNat k hk2]

/-- C3 witness: the conclusion of `c3_bounds_sample_grid` at a concrete
instance (constant external distance of 2 km, unit square, interval 1 km,
hence a 2 × 2 grid). -/
theorem c3_witness :
    ∃ out, Bounds.sample (fun _ _ => 2) ⟨⟨0, 0, []⟩, ⟨1, 1, []⟩⟩ 1 = Except.ok out ∧
      out.coords.length = (2 : Int).toNat * (2 : Int).toNat ∧
      (∀ p ∈ out.coords,
        (⟨⟨0, 0, []⟩, ⟨1, 1, []⟩⟩ : Bounds).lo.lon ≤ p.lon ∧
        p.lon ≤ (⟨⟨0, 0, []⟩, ⟨1, 1, []⟩⟩ : Bounds).hi.lon ∧
        (⟨⟨0, 0, []⟩, ⟨1, 1, []⟩⟩ : Bounds).lo.lat ≤ p.lat ∧
        p.lat ≤ (⟨⟨0, 0, []⟩, ⟨1, 1, []⟩⟩ : Bounds).hi.lat) ∧
      (∀ k, k < (2 : Int).toNat * (2 : Int).toNat →
        out.coords[k]? = some
          ⟨(⟨⟨0, 0, []⟩, ⟨1, 1, []⟩⟩ : Bounds).lo.lon +
              (((k % (2 : Int).toNat : ℕ) : ℚ) / ((2 : Int) : ℚ)) *
                ((⟨⟨0, 0, []⟩, ⟨1, 1, []⟩⟩ : Bounds).hi.lon -
                  (⟨⟨0, 0, []⟩, ⟨1, 1, []⟩⟩ : Bounds).lo.lon),
           (⟨⟨0, 0, []⟩, ⟨1, 1, []⟩⟩ : Bounds).lo.lat +
              (((k / (2 : Int).toNat : ℕ) : ℚ) / ((2 : Int) : ℚ)) *
                ((⟨⟨0, 0, []⟩, ⟨1, 1, []⟩⟩ : Bounds).hi.lat -
                  (⟨⟨0, 0, []⟩, ⟨1, 1, []⟩⟩ : Bounds).lo.lat),
           []⟩) :=
  c3_bounds_sample_grid (fun _ _ => 2) ⟨⟨0, 0, []⟩, ⟨1, 1, []⟩⟩ 1 2 2
    (by norm_num)
    (by norm_num [Bounds.gridCounts, Bounds.get_wh, Point.latlon])
    (by norm_num) (by norm_num) (by norm_num) (by norm_num)

/-- C9: the output of `Coords.sample`, whenever it is produced, is a
subsequence of the input point list: it preserves the relative input order of
the retained points and contains no point that is not in the input. -/
theorem c9_sample_sublist (dist : Dist) (c : Coords) (b : Bounds) (interval : ℚ)
    (out : Coords) (h : Coords.sample dist c b interval = Except.ok out) :
    out.coords.Sublist c.coords ∧ ∀ p ∈ out.coords, p ∈ c.coords := by
  simp only [Coords.sample] at h
  split_ifs at h
  all_goals
    first
      | exact Except.noConfusion h
      | (injection h with h4
         subst h4
         exact ⟨List.filter_sublist _, fun p hp => (List.filter_sublist _).subset hp⟩)

/-- C9 witness: a concrete two-point input inside a 1 × 1 grid is returned
unchanged, and the sublist/membership conclusion holds for it. -/
theorem c9_witness :
    (Coords.mk [(⟨0, 0, []⟩ : Point), ⟨1/2, 1/2, []⟩]).coords.Sublist
      [(⟨0, 0, []⟩ : Point), ⟨1/2, 1/2, []⟩] ∧
    ∀ p ∈ (Coords.mk [(⟨0, 0, []⟩ : Point), ⟨1/2, 1/2, []⟩]).coords,
      p ∈ [(⟨0, 0, []⟩ : Point), ⟨1/2, 1/2, []⟩] :=
  c9_sample_sublist (fun _ _ => 1) ⟨[⟨0, 0, []⟩, ⟨1/2, 1/2, []⟩]⟩
    ⟨⟨0, 0, []⟩, ⟨1, 1, []⟩⟩ 1 ⟨[⟨0, 0, []⟩, ⟨1/2, 1/2, []⟩]⟩
    (by norm_num [Coords.sample, Bounds.gridCounts, Bounds.get_wh, Point.latlon,
      cellIndex, inGrid, List.filter])

end EkGeo
